import Mathlib

/-!
Formal model of the Order aggregate core of the bookstore DDD exercise:
`Money` and `OrderStatus` value objects, the `OrderItem` child entity and
the `Order` aggregate root, translated from the TypeScript sources
(`Order.ts`, `OrderItem.ts`, `Money.ts`, `OrderStatus.ts`).

Modelling conventions:
- TypeScript `number` is modelled as `ℚ` (every arithmetic operation the
  code performs on the values appearing in this development is exact, so
  rational arithmetic coincides with IEEE double arithmetic there, while
  still letting us talk about non-integral quantities such as `5/2`).
- `throw new Error(...)` is modelled as `Except.error` carrying a
  `DomainError` constructor, one per distinct failure condition of the
  source (the spec groups them into the same named classes).
- TypeScript `Date` is modelled as an opaque `Nat` tick; `new Date()`
  inside a command becomes an explicit `now` argument.
- The private constructors that run `validateInvariants()` are modelled
  as `make` functions returning `Except`; every factory and command goes
  through them, exactly as every `new` in the source runs validation.
- `OrderId.generate()` draws a fresh UUID; the generated value is passed
  to `Order.create` as an explicit argument.  The UUID-format check of
  `OrderId` is not modelled: no claim depends on it and the aggregate
  treats the id as opaque.
-/

deriving instance DecidableEq for Except

namespace Bookstore

/-- One constructor per distinct `throw` site of the core sources. -/
inductive DomainError where
  | invalidMoney
  | currencyMismatch
  | negativeResult
  | invalidMultiplier
  | invalidQuantity
  | negativeMoney
  | subtotalMismatch
  | orderNotModifiable
  | itemNotFound
  | cannotPlaceEmptyOrder
  | invalidStatusTransition
  | totalsMismatch
  | missingTimestamp
  deriving DecidableEq, Repr

/-- Currency acceptance of `Money.validateInvariants`: the regex
`^[A-Z]{3}$` (the preceding truthiness/trim-length test in the source is
subsumed by the regex and raises the same error class). -/
def validCurrency (c : String) : Bool :=
  c.length == 3 && c.data.all (fun ch => ('A' ≤ ch) && (ch ≤ 'Z'))

/-- Money value object: `amount` (TS number) and `currency` (3-letter code).
The getters `getAmount`/`getCurrency` of the source are the field
projections. -/
structure Money where
  amount : ℚ
  currency : String
  deriving DecidableEq, Repr

namespace Money

/-- The private `Money` constructor: runs `validateInvariants` (negative
amount, then currency shape; both raise the `InvalidMoney` class). -/
def make (amount : ℚ) (currency : String) : Except DomainError Money :=
  if amount < 0 then .error .invalidMoney
  else if !(validCurrency currency) then .error .invalidMoney
  else .ok ⟨amount, currency⟩

/-- `Money.create(amount, currency)`. -/
def create (amount : ℚ) (currency : String) : Except DomainError Money :=
  make amount currency

/-- `Money.zero(currency)`. -/
def zero (currency : String) : Except DomainError Money :=
  make 0 currency

/-- `add`: `ensureSameCurrency` then the validating constructor. -/
def add (m other : Money) : Except DomainError Money :=
  if m.currency ≠ other.currency then .error .currencyMismatch
  else make (m.amount + other.amount) m.currency

/-- `subtract`: `ensureSameCurrency`, explicit negative-result check, then
the validating constructor. -/
def subtract (m other : Money) : Except DomainError Money :=
  if m.currency ≠ other.currency then .error .currencyMismatch
  else if m.amount - other.amount < 0 then .error .negativeResult
  else make (m.amount - other.amount) m.currency

/-- `multiply`: negative-multiplier check, then the validating constructor. -/
def multiply (m : Money) (multiplier : ℚ) : Except DomainError Money :=
  if multiplier < 0 then .error .invalidMultiplier
  else make (m.amount * multiplier) m.currency

/-- `isGreaterThan`: `ensureSameCurrency`, then amount comparison. -/
def isGreaterThan (m other : Money) : Except DomainError Bool :=
  if m.currency ≠ other.currency then .error .currencyMismatch
  else .ok (decide (other.amount < m.amount))

/-- `isLessThan`: `ensureSameCurrency`, then amount comparison. -/
def isLessThan (m other : Money) : Except DomainError Bool :=
  if m.currency ≠ other.currency then .error .currencyMismatch
  else .ok (decide (m.amount < other.amount))

/-- `equals`: amount and currency both match; never throws. -/
def equals (m other : Money) : Bool :=
  m.amount == other.amount && m.currency == other.currency

/-- `isZero`. -/
def isZero (m : Money) : Bool :=
  m.amount == 0

/-- The property every TypeScript `Money` instance has, having passed its
constructor validation. -/
def Valid (m : Money) : Prop :=
  0 ≤ m.amount ∧ validCurrency m.currency = true

instance (m : Money) : Decidable m.Valid := by
  unfold Valid; infer_instance

end Money

/-- OrderStatus value object (the TS class wraps the `OrderStatusValue`
enum; the wrapper is collapsed into the enum itself). -/
inductive OrderStatus where
  | draft
  | placed
  | completed
  | cancelled
  deriving DecidableEq, Repr

namespace OrderStatus

/-- The `transitions` adjacency table of `canTransitionTo`. -/
def transitions : OrderStatus → List OrderStatus
  | .draft => [.placed, .cancelled]
  | .placed => [.completed, .cancelled]
  | .completed => []
  | .cancelled => []

/-- `canTransitionTo`: membership in the adjacency table; pure, never throws. -/
def canTransitionTo (s target : OrderStatus) : Bool :=
  (transitions s).contains target

def isDraft : OrderStatus → Bool
  | .draft => true
  | _ => false

def isPlaced : OrderStatus → Bool
  | .placed => true
  | _ => false

def isCompleted : OrderStatus → Bool
  | .completed => true
  | _ => false

def isCancelled : OrderStatus → Bool
  | .cancelled => true
  | _ => false

/-- `isTerminal`. -/
def isTerminal (s : OrderStatus) : Bool :=
  s.isCompleted || s.isCancelled

end OrderStatus

/-- OrderItem child entity: one line of an order. -/
structure OrderItem where
  bookId : String
  quantity : ℚ
  unitPrice : Money
  subtotal : Money
  deriving DecidableEq, Repr

namespace OrderItem

/-- The private `OrderItem` constructor: runs `validateInvariants`
(quantity positive, unit price and subtotal non-negative, subtotal equal
to `unitPrice.multiply(quantity)`). -/
def make (bookId : String) (quantity : ℚ) (unitPrice subtotal : Money) :
    Except DomainError OrderItem :=
  if quantity ≤ 0 then .error .invalidQuantity
  else if unitPrice.amount < 0 then .error .negativeMoney
  else if subtotal.amount < 0 then .error .negativeMoney
  else
    match unitPrice.multiply quantity with
    | .error e => .error e
    | .ok expected =>
      if subtotal.equals expected then .ok ⟨bookId, quantity, unitPrice, subtotal⟩
      else .error .subtotalMismatch

/-- `OrderItem.create`: computes the subtotal via `unitPrice.multiply`
(whose own checks run first), then constructs. -/
def create (bookId : String) (quantity : ℚ) (unitPrice : Money) :
    Except DomainError OrderItem :=
  match unitPrice.multiply quantity with
  | .error e => .error e
  | .ok subtotal => make bookId quantity unitPrice subtotal

/-- `OrderItem.reconstruct`: accepts a precomputed subtotal, revalidated by
the constructor. -/
def reconstruct (bookId : String) (quantity : ℚ) (unitPrice subtotal : Money) :
    Except DomainError OrderItem :=
  make bookId quantity unitPrice subtotal

/-- `updateQuantity`. -/
def updateQuantity (it : OrderItem) (newQuantity : ℚ) : Except DomainError OrderItem :=
  if newQuantity ≤ 0 then .error .invalidQuantity
  else create it.bookId newQuantity it.unitPrice

/-- `isForBook`. -/
def isForBook (it : OrderItem) (bookId : String) : Bool :=
  it.bookId == bookId

/-- The property every TypeScript `OrderItem` instance has: it passes its
own constructor validation. -/
def Valid (it : OrderItem) : Prop :=
  reconstruct it.bookId it.quantity it.unitPrice it.subtotal = .ok it

instance (it : OrderItem) : Decidable it.Valid := by
  unfold Valid; infer_instance

end OrderItem

/-- OrderId value object (UUID string; format validation not modelled,
see the header comment). -/
structure OrderId where
  value : String
  deriving DecidableEq, Repr

/-- The `findIndex`/`slice` splice of `Order.addItem` and
`Order.updateItemQuantity` replaces the first line whose `bookId`
matches; this helper does exactly that. -/
def replaceFirst (bookId : String) (updated : OrderItem) :
    List OrderItem → List OrderItem
  | [] => []
  | it :: rest =>
    if it.bookId == bookId then updated :: rest
    else it :: replaceFirst bookId updated rest

/-- The `findIndex`/`slice` splice of `Order.removeItem` drops the first
line whose `bookId` matches; this helper does exactly that. -/
def removeFirst (bookId : String) : List OrderItem → List OrderItem
  | [] => []
  | it :: rest =>
    if it.bookId == bookId then rest
    else it :: removeFirst bookId rest

/-- Order aggregate root.  The getters of the source are the field
projections (the `items` getter returns a defensive copy, equal as a list
to the field). -/
structure Order where
  id : OrderId
  customerId : String
  items : List OrderItem
  total : Money
  status : OrderStatus
  createdAt : Nat
  placedAt : Option Nat
  completedAt : Option Nat
  cancelledAt : Option Nat
  deriving DecidableEq, Repr

namespace Order

/-- `Order.calculateTotalFromItems`.  In the source this is an instance
method reading `this._total`; the `prev` argument stands for that field
(`none` models the dead falsy branch that defaults to JPY). -/
def calculateTotalFromItems (prev : Option Money) (items : List OrderItem) :
    Except DomainError Money :=
  match items with
  | [] =>
    match prev with
    | some t => Money.zero t.currency
    | none => Money.zero "JPY"
  | first :: _ => do
    let z ← Money.zero first.unitPrice.currency
    items.foldlM (fun sum it => sum.add it.subtotal) z

/-- `Order.validateInvariants`: total matches the recomputed sum, and each
non-draft status has its timestamp. -/
def validateInvariants (o : Order) : Except DomainError Unit :=
  match calculateTotalFromItems (some o.total) o.items with
  | .error e => .error e
  | .ok calculated =>
    if !(o.total.equals calculated) then .error .totalsMismatch
    else if o.status.isPlaced && o.placedAt.isNone then .error .missingTimestamp
    else if o.status.isCompleted && o.completedAt.isNone then .error .missingTimestamp
    else if o.status.isCancelled && o.cancelledAt.isNone then .error .missingTimestamp
    else .ok ()

/-- The private `Order` constructor: builds the record and runs
`validateInvariants`. -/
def make (id : OrderId) (customerId : String) (items : List OrderItem)
    (total : Money) (status : OrderStatus) (createdAt : Nat)
    (placedAt completedAt cancelledAt : Option Nat) : Except DomainError Order :=
  let o : Order :=
    ⟨id, customerId, items, total, status, createdAt, placedAt, completedAt, cancelledAt⟩
  match o.validateInvariants with
  | .error e => .error e
  | .ok _ => .ok o

/-- The property every TypeScript `Order` instance has: it passes the
constructor validation it was built with. -/
def Valid (o : Order) : Prop :=
  o.validateInvariants = .ok ()

instance (o : Order) : Decidable o.Valid := by
  unfold Valid; infer_instance

/-- `Order.create(customerId, currency)`: Draft, empty items, zero total. -/
def create (id : OrderId) (customerId : String) (currency : String) (now : Nat) :
    Except DomainError Order :=
  match Money.zero currency with
  | .error e => .error e
  | .ok z => make id customerId [] z .draft now none none none

/-- `Order.reconstruct`: rebuilds from persisted fields through the same
validating constructor. -/
def reconstruct (id : OrderId) (customerId : String) (items : List OrderItem)
    (total : Money) (status : OrderStatus) (createdAt : Nat)
    (placedAt completedAt cancelledAt : Option Nat) : Except DomainError Order :=
  make id customerId items total status createdAt placedAt completedAt cancelledAt

/-- `canPlace`: non-empty items and Draft status. -/
def canPlace (o : Order) : Bool :=
  !o.items.isEmpty && o.status.isDraft

/-- `canModify`: Draft status. -/
def canModify (o : Order) : Bool :=
  o.status.isDraft

/-- `getTotalItemCount`: sum of quantities. -/
def getTotalItemCount (o : Order) : ℚ :=
  o.items.foldl (fun sum it => sum + it.quantity) 0

/-- `Order.addItem`: Draft-only; merges with an existing line for the same
book (old quantity plus new, at the new call price) or appends; recomputes
the total; reconstructs through the validating constructor. -/
def addItem (o : Order) (bookId : String) (quantity : ℚ) (unitPrice : Money) :
    Except DomainError Order :=
  if !o.canModify then .error .orderNotModifiable
  else
    match o.items.find? (fun it => it.bookId == bookId) with
    | some existingItem => do
      let updatedItem ← OrderItem.create bookId (existingItem.quantity + quantity) unitPrice
      let newItems := replaceFirst bookId updatedItem o.items
      let newTotal ← calculateTotalFromItems (some o.total) newItems
      make o.id o.customerId newItems newTotal o.status o.createdAt
        o.placedAt o.completedAt o.cancelledAt
    | none => do
      let newItem ← OrderItem.create bookId quantity unitPrice
      let newItems := o.items ++ [newItem]
      let newTotal ← calculateTotalFromItems (some o.total) newItems
      make o.id o.customerId newItems newTotal o.status o.createdAt
        o.placedAt o.completedAt o.cancelledAt

/-- `Order.removeItem`: Draft-only; the book must be present; recomputes
the total. -/
def removeItem (o : Order) (bookId : String) : Except DomainError Order :=
  if !o.canModify then .error .orderNotModifiable
  else
    match o.items.find? (fun it => it.bookId == bookId) with
    | none => .error .itemNotFound
    | some _ => do
      let newItems := removeFirst bookId o.items
      let newTotal ← calculateTotalFromItems (some o.total) newItems
      make o.id o.customerId newItems newTotal o.status o.createdAt
        o.placedAt o.completedAt o.cancelledAt

/-- `Order.updateItemQuantity`: Draft-only; the book must be present; the
line is rebuilt at its existing unit price; recomputes the total. -/
def updateItemQuantity (o : Order) (bookId : String) (newQuantity : ℚ) :
    Except DomainError Order :=
  if !o.canModify then .error .orderNotModifiable
  else
    match o.items.find? (fun it => it.bookId == bookId) with
    | none => .error .itemNotFound
    | some existingItem => do
      let updatedItem ← OrderItem.create bookId newQuantity existingItem.unitPrice
      let newItems := replaceFirst bookId updatedItem o.items
      let newTotal ← calculateTotalFromItems (some o.total) newItems
      make o.id o.customerId newItems newTotal o.status o.createdAt
        o.placedAt o.completedAt o.cancelledAt

/-- `Order.place`: `canPlace` gate (its failure raises the
`CannotPlaceEmptyOrder` class), then the transition table, then the
validating constructor with `placedAt = now`. -/
def place (o : Order) (now : Nat) : Except DomainError Order :=
  if !o.canPlace then .error .cannotPlaceEmptyOrder
  else if !(o.status.canTransitionTo .placed) then .error .invalidStatusTransition
  else make o.id o.customerId o.items o.total .placed o.createdAt
    (some now) o.completedAt o.cancelledAt

/-- `Order.complete`: transition table, then the validating constructor
with `completedAt = now`. -/
def complete (o : Order) (now : Nat) : Except DomainError Order :=
  if !(o.status.canTransitionTo .completed) then .error .invalidStatusTransition
  else make o.id o.customerId o.items o.total .completed o.createdAt
    o.placedAt (some now) o.cancelledAt

/-- `Order.cancel`: transition table, then the validating constructor with
`cancelledAt = now`. -/
def cancel (o : Order) (now : Nat) : Except DomainError Order :=
  if !(o.status.canTransitionTo .cancelled) then .error .invalidStatusTransition
  else make o.id o.customerId o.items o.total .cancelled o.createdAt
    o.placedAt o.completedAt (some now)

end Order

/-- One public command call on the aggregate. -/
inductive Command where
  | addItem (bookId : String) (quantity : ℚ) (unitPrice : Money)
  | removeItem (bookId : String)
  | updateItemQuantity (bookId : String) (newQuantity : ℚ)
  | place
  | complete
  | cancel

/-- Apply one command at time `now`. -/
def step (now : Nat) (o : Order) : Command → Except DomainError Order
  | .addItem b q p => o.addItem b q p
  | .removeItem b => o.removeItem b
  | .updateItemQuantity b q => o.updateItemQuantity b q
  | .place => o.place now
  | .complete => o.complete now
  | .cancel => o.cancel now

/-- Apply a sequence of timestamped commands, stopping at the first failure. -/
def runCommands (o : Order) : List (Nat × Command) → Except DomainError Order
  | [] => .ok o
  | (now, c) :: rest =>
    match step now o c with
    | .error e => .error e
    | .ok next => runCommands next rest

/-- Sum of the line subtotal amounts of a list of items. -/
def subSum (items : List OrderItem) : ℚ :=
  (items.map (fun it => it.subtotal.amount)).sum

/-- Follows the spec's wording of the total-recalculation policy, for
comparison with the source's `Order.calculateTotalFromItems`: empty list
gives zero in the existing total's currency (default currency JPY when no
prior total exists); otherwise the left-fold of the item subtotals under
`Money.add`, seeded with zero in the currency of the first item in the
list (read as the currency of the value being summed, its subtotal). -/
def specTotalRecalculation (prev : Option Money) (items : List OrderItem) :
    Except DomainError Money :=
  match items with
  | [] =>
    match prev with
    | some t => Money.zero t.currency
    | none => Money.zero "JPY"
  | first :: _ => do
    let z ← Money.zero first.subtotal.currency
    items.foldlM (fun sum it => sum.add it.subtotal) z

/-! Basic lemmas about the `Except` plumbing and the `Money` operations. -/

@[simp]
theorem exceptBind_ok {α β : Type} (a : α) (f : α → Except DomainError β) :
    (Except.ok a >>= f) = f a := rfl

@[simp]
theorem exceptBind_error {α β : Type} (e : DomainError) (f : α → Except DomainError β) :
    ((Except.error e : Except DomainError α) >>= f) = .error e := rfl

theorem exceptBind_eq_ok {α β : Type} {e : Except DomainError α}
    {f : α → Except DomainError β} {b : β} :
    e >>= f = .ok b ↔ ∃ a, e = .ok a ∧ f a = .ok b := by
  cases e <;> simp

theorem Money.make_ok {a : ℚ} {c : String} (ha : 0 ≤ a) (hc : validCurrency c = true) :
    Money.make a c = .ok ⟨a, c⟩ := by
  simp [Money.make, not_lt.mpr ha, hc]

theorem Money.zero_ok {c : String} (hc : validCurrency c = true) :
    Money.zero c = .ok ⟨0, c⟩ :=
  Money.make_ok le_rfl hc

theorem Money.add_same {a b : ℚ} {c : String} (ha : 0 ≤ a) (hb : 0 ≤ b)
    (hc : validCurrency c = true) :
    Money.add ⟨a, c⟩ ⟨b, c⟩ = .ok ⟨a + b, c⟩ := by
  simp [Money.add, Money.make_ok (add_nonneg ha hb) hc]

theorem Money.equals_self (m : Money) : m.equals m = true := by
  simp [Money.equals]

theorem Money.equals_iff {m n : Money} :
    m.equals n = true ↔ m.amount = n.amount ∧ m.currency = n.currency := by
  simp [Money.equals]

theorem Money.multiply_ok {p : Money} {k : ℚ} (hk : 0 ≤ k) (hp : 0 ≤ p.amount)
    (hc : validCurrency p.currency = true) :
    p.multiply k = .ok ⟨p.amount * k, p.currency⟩ := by
  simp [Money.multiply, not_lt.mpr hk, Money.make_ok (mul_nonneg hp hk) hc]

/-! Lemmas about `OrderItem` construction and validity. -/

theorem OrderItem.create_ok {bookId : String} {q : ℚ} {p : Money}
    (hq : 0 < q) (hp : p.Valid) :
    OrderItem.create bookId q p = .ok ⟨bookId, q, p, ⟨p.amount * q, p.currency⟩⟩ := by
  obtain ⟨hpa, hpc⟩ := hp
  simp [OrderItem.create, Money.multiply_ok hq.le hpa hpc, OrderItem.make,
    not_le.mpr hq, not_lt.mpr hpa, not_lt.mpr (mul_nonneg hpa hq.le), Money.equals_self]

theorem OrderItem.create_neg {bookId : String} {q : ℚ} {p : Money} (hq : q < 0) :
    OrderItem.create bookId q p = .error .invalidMultiplier := by
  simp [OrderItem.create, Money.multiply, hq]

theorem OrderItem.create_zero {bookId : String} {p : Money}
    (hp : 0 ≤ p.amount) (hc : validCurrency p.currency = true) :
    OrderItem.create bookId 0 p = .error .invalidQuantity := by
  simp [OrderItem.create, Money.multiply_ok le_rfl hp hc, OrderItem.make]

theorem OrderItem.valid_iff {it : OrderItem} :
    it.Valid ↔ 0 < it.quantity ∧ 0 ≤ it.unitPrice.amount ∧
      validCurrency it.unitPrice.currency = true ∧
      it.subtotal = ⟨it.unitPrice.amount * it.quantity, it.unitPrice.currency⟩ := by
  constructor
  · intro h
    unfold OrderItem.Valid OrderItem.reconstruct OrderItem.make at h
    split_ifs at h with h1 h2 h3
    have hq : 0 < it.quantity := not_le.mp h1
    have hpa : 0 ≤ it.unitPrice.amount := not_lt.mp h2
    rcases hm : it.unitPrice.multiply it.quantity with e | expected
    · rw [hm] at h; cases h
    · rw [hm] at h
      have hpc : validCurrency it.unitPrice.currency = true := by
        by_contra hbad
        have : it.unitPrice.multiply it.quantity = .error .invalidMoney := by
          simp [Money.multiply, not_lt.mpr hq.le, Money.make,
            not_lt.mpr (mul_nonneg hpa hq.le), Bool.eq_false_iff.mpr hbad]
        rw [this] at hm; cases hm
      rw [Money.multiply_ok hq.le hpa hpc] at hm
      cases hm
      dsimp only at h
      split_ifs at h with h4
      · rcases Money.equals_iff.mp h4 with ⟨hA, hC⟩
        exact ⟨hq, hpa, hpc, by cases hst : it.subtotal; simp_all⟩
  · rintro ⟨hq, hpa, hpc, hst⟩
    have hsub : 0 ≤ it.subtotal.amount := by
      rw [hst]; exact mul_nonneg hpa hq.le
    have heqs : it.subtotal.equals ⟨it.unitPrice.amount * it.quantity, it.unitPrice.currency⟩ = true := by
      rw [hst]; exact Money.equals_self _
    unfold OrderItem.Valid OrderItem.reconstruct OrderItem.make
    rw [Money.multiply_ok hq.le hpa hpc]
    simp [not_le.mpr hq, not_lt.mpr hpa, not_lt.mpr hsub, heqs]

/-! Lemmas about the total-recalculation fold. -/

theorem foldlM_add_ok {c : String} (hc : validCurrency c = true) :
    ∀ (l : List OrderItem) (a : ℚ), 0 ≤ a →
      (∀ it ∈ l, it.subtotal.currency = c ∧ 0 ≤ it.subtotal.amount) →
      List.foldlM (fun sum it => Money.add sum it.subtotal) (⟨a, c⟩ : Money) l =
        .ok ⟨a + subSum l, c⟩
  | [], a, ha, _ => by simp [subSum, pure, Except.pure]
  | it :: rest, a, ha, hall => by
    obtain ⟨hcur, hamt⟩ := hall it (List.mem_cons_self it rest)
    have hstep : Money.add ⟨a, c⟩ it.subtotal = .ok ⟨a + it.subtotal.amount, c⟩ := by
      simp [Money.add, hcur, Money.make_ok (add_nonneg ha hamt) hc]
    have ih := foldlM_add_ok hc rest (a + it.subtotal.amount) (add_nonneg ha hamt)
      (fun x hx => hall x (List.mem_cons_of_mem it hx))
    rw [List.foldlM_cons, hstep]
    simpa [subSum, add_assoc] using ih

theorem foldlM_add_mismatch {c : String} (hc : validCurrency c = true) :
    ∀ (l : List OrderItem) (a : ℚ), 0 ≤ a →
      (∀ it ∈ l, 0 ≤ it.subtotal.amount) →
      (∃ it ∈ l, it.subtotal.currency ≠ c) →
      List.foldlM (fun sum it => Money.add sum it.subtotal) (⟨a, c⟩ : Money) l =
        .error .currencyMismatch
  | [], _, _, _, hex => by simp at hex
  | it :: rest, a, ha, hpos, hex => by
    rw [List.foldlM_cons]
    by_cases hcur : it.subtotal.currency = c
    · have hamt := hpos it (List.mem_cons_self it rest)
      have hstep : Money.add ⟨a, c⟩ it.subtotal = .ok ⟨a + it.subtotal.amount, c⟩ := by
        simp [Money.add, hcur, Money.make_ok (add_nonneg ha hamt) hc]
      rw [hstep]
      have hex2 : ∃ x ∈ rest, x.subtotal.currency ≠ c := by
        rcases hex with ⟨x, hx, hxc⟩
        rcases List.mem_cons.mp hx with rfl | hxr
        · exact absurd hcur hxc
        · exact ⟨x, hxr, hxc⟩
      simpa using foldlM_add_mismatch hc rest (a + it.subtotal.amount)
        (add_nonneg ha hamt) (fun x hx => hpos x (List.mem_cons_of_mem it hx)) hex2
    · have hstep : Money.add ⟨a, c⟩ it.subtotal = .error .currencyMismatch := by
        simp [Money.add, Ne.symm hcur]
      rw [hstep]
      simp

theorem calcTotal_nil (prev : Money) :
    Order.calculateTotalFromItems (some prev) [] = Money.zero prev.currency := rfl

theorem calcTotal_cons_ok {prev : Option Money} {first : OrderItem} {rest : List OrderItem}
    (hc : validCurrency first.unitPrice.currency = true)
    (hall : ∀ it ∈ first :: rest,
      it.subtotal.currency = first.unitPrice.currency ∧ 0 ≤ it.subtotal.amount) :
    Order.calculateTotalFromItems prev (first :: rest) =
      .ok ⟨subSum (first :: rest), first.unitPrice.currency⟩ := by
  have hfold := foldlM_add_ok hc (first :: rest) 0 le_rfl hall
  simp only [Order.calculateTotalFromItems]
  rw [Money.zero_ok hc, exceptBind_ok]
  simpa using hfold

theorem calcTotal_cons_mismatch {prev : Option Money} {first : OrderItem}
    {rest : List OrderItem}
    (hc : validCurrency first.unitPrice.currency = true)
    (hpos : ∀ it ∈ first :: rest, 0 ≤ it.subtotal.amount)
    (hex : ∃ it ∈ first :: rest, it.subtotal.currency ≠ first.unitPrice.currency) :
    Order.calculateTotalFromItems prev (first :: rest) = .error .currencyMismatch := by
  have hfold := foldlM_add_mismatch hc (first :: rest) 0 le_rfl hpos hex
  simp only [Order.calculateTotalFromItems]
  rw [Money.zero_ok hc, exceptBind_ok]
  simpa using hfold

/-! Lemmas about `replaceFirst`. -/

theorem mem_replaceFirst {B : String} {u x : OrderItem} :
    ∀ {l : List OrderItem}, x ∈ replaceFirst B u l → x = u ∨ x ∈ l
  | [], h => by simp [replaceFirst] at h
  | it :: rest, h => by
    simp only [replaceFirst] at h
    split at h
    · rcases List.mem_cons.mp h with h1 | hx
      · exact Or.inl h1
      · exact Or.inr (List.mem_cons_of_mem _ hx)
    · rcases List.mem_cons.mp h with h1 | hx
      · exact Or.inr (h1 ▸ List.mem_cons_self _ _)
      · rcases mem_replaceFirst hx with h2 | hx2
        · exact Or.inl h2
        · exact Or.inr (List.mem_cons_of_mem _ hx2)

theorem subSum_replaceFirst {B : String} {u ex : OrderItem} :
    ∀ {l : List OrderItem}, l.find? (fun it => it.bookId == B) = some ex →
      subSum (replaceFirst B u l) = subSum l - ex.subtotal.amount + u.subtotal.amount
  | [], h => by simp at h
  | it :: rest, h => by
    by_cases hb : (it.bookId == B) = true
    · simp only [List.find?_cons, hb] at h
      injection h with h
      subst h
      simp only [replaceFirst, if_pos hb]
      simp [subSum]
      ring
    · have hb2 : (it.bookId == B) = false := by simpa using hb
      simp only [List.find?_cons, hb2] at h
      have ih := @subSum_replaceFirst B u ex rest h
      simp only [replaceFirst, if_neg hb]
      simp [subSum] at ih ⊢
      rw [ih]
      ring

theorem countP_replaceFirst {B : String} {u : OrderItem} (hu : (u.bookId == B) = true) :
    ∀ {l : List OrderItem} {ex : OrderItem},
      l.find? (fun it => it.bookId == B) = some ex →
      (replaceFirst B u l).countP (fun it => it.bookId == B) =
        l.countP (fun it => it.bookId == B)
  | [], _, h => by simp at h
  | it :: rest, ex, h => by
    by_cases hb : (it.bookId == B) = true
    · simp only [replaceFirst, if_pos hb]
      simp [List.countP_cons, hu, hb]
    · have hb2 : (it.bookId == B) = false := by simpa using hb
      simp only [List.find?_cons, hb2] at h
      simp only [replaceFirst, if_neg hb]
      simp [List.countP_cons, hb2, countP_replaceFirst hu h]

theorem find?_replaceFirst {B : String} {u : OrderItem} (hu : (u.bookId == B) = true) :
    ∀ {l : List OrderItem} {ex : OrderItem},
      l.find? (fun it => it.bookId == B) = some ex →
      (replaceFirst B u l).find? (fun it => it.bookId == B) = some u
  | [], _, h => by simp at h
  | it :: rest, ex, h => by
    by_cases hb : (it.bookId == B) = true
    · simp only [replaceFirst, if_pos hb]
      simp [List.find?_cons, hu]
    · have hb2 : (it.bookId == B) = false := by simpa using hb
      simp only [List.find?_cons, hb2] at h
      simp only [replaceFirst, if_neg hb]
      simp [List.find?_cons, hb2, find?_replaceFirst hu h]

/-! Lemmas about `Order` validity and the validating constructor. -/

theorem Order.valid_total {o : Order} (h : o.Valid) :
    ∃ s, Order.calculateTotalFromItems (some o.total) o.items = .ok s ∧
      o.total.equals s = true := by
  unfold Order.Valid Order.validateInvariants at h
  rcases hc : Order.calculateTotalFromItems (some o.total) o.items with e | s
  · rw [hc] at h; cases h
  · rw [hc] at h
    refine ⟨s, rfl, ?_⟩
    by_contra hbad
    have hfalse : o.total.equals s = false := by
      simpa using hbad
    simp [hfalse] at h

theorem Order.valid_of_checks {o : Order}
    (hcalc : ∃ s, Order.calculateTotalFromItems (some o.total) o.items = .ok s ∧
      o.total.equals s = true)
    (h1 : (o.status.isPlaced && o.placedAt.isNone) = false)
    (h2 : (o.status.isCompleted && o.completedAt.isNone) = false)
    (h3 : (o.status.isCancelled && o.cancelledAt.isNone) = false) : o.Valid := by
  obtain ⟨s, hc, he⟩ := hcalc
  unfold Order.Valid Order.validateInvariants
  rw [hc]
  simp [he, h1, h2, h3]

theorem Order.make_eq_ok {id : OrderId} {cid : String} {items : List OrderItem}
    {total : Money} {status : OrderStatus} {ca : Nat} {pa cpa cca : Option Nat} {o : Order}
    (h : Order.make id cid items total status ca pa cpa cca = .ok o) :
    o = ⟨id, cid, items, total, status, ca, pa, cpa, cca⟩ ∧ o.Valid := by
  simp only [Order.make] at h
  rcases hv : (Order.mk id cid items total status ca pa cpa cca).validateInvariants with e | u
  · rw [hv] at h; cases h
  · rw [hv] at h
    cases u
    injection h with h
    subst h
    exact ⟨rfl, hv⟩

theorem Order.make_ok_of_valid {id : OrderId} {cid : String} {items : List OrderItem}
    {total : Money} {status : OrderStatus} {ca : Nat} {pa cpa cca : Option Nat}
    (h : (Order.mk id cid items total status ca pa cpa cca).Valid) :
    Order.make id cid items total status ca pa cpa cca =
      .ok ⟨id, cid, items, total, status, ca, pa, cpa, cca⟩ := by
  unfold Order.Valid at h
  simp only [Order.make]
  rw [h]

theorem Order.addItem_ok_valid {o : Order} {B : String} {q : ℚ} {p : Money} {o' : Order}
    (h : o.addItem B q p = .ok o') : o'.Valid := by
  unfold Order.addItem at h
  by_cases hcm : (!o.canModify) = true
  · rw [if_pos hcm] at h; cases h
  · rw [if_neg hcm] at h
    rcases hm : o.items.find? (fun it => it.bookId == B) with _ | ex <;> rw [hm] at h
    all_goals
      rcases exceptBind_eq_ok.mp h with ⟨u, hu, h2⟩
      rcases exceptBind_eq_ok.mp h2 with ⟨t, ht, h3⟩
      exact (Order.make_eq_ok h3).2

theorem Order.removeItem_ok_valid {o : Order} {B : String} {o' : Order}
    (h : o.removeItem B = .ok o') : o'.Valid := by
  unfold Order.removeItem at h
  by_cases hcm : (!o.canModify) = true
  · rw [if_pos hcm] at h; cases h
  · rw [if_neg hcm] at h
    rcases hm : o.items.find? (fun it => it.bookId == B) with _ | ex <;> rw [hm] at h
    · cases h
    · rcases exceptBind_eq_ok.mp h with ⟨t, ht, h3⟩
      exact (Order.make_eq_ok h3).2

theorem Order.updateItemQuantity_ok_valid {o : Order} {B : String} {q : ℚ} {o' : Order}
    (h : o.updateItemQuantity B q = .ok o') : o'.Valid := by
  unfold Order.updateItemQuantity at h
  by_cases hcm : (!o.canModify) = true
  · rw [if_pos hcm] at h; cases h
  · rw [if_neg hcm] at h
    rcases hm : o.items.find? (fun it => it.bookId == B) with _ | ex <;> rw [hm] at h
    · cases h
    · rcases exceptBind_eq_ok.mp h with ⟨u, hu, h2⟩
      rcases exceptBind_eq_ok.mp h2 with ⟨t, ht, h3⟩
      exact (Order.make_eq_ok h3).2

theorem Order.place_ok_valid {o : Order} {now : Nat} {o' : Order}
    (h : o.place now = .ok o') : o'.Valid := by
  unfold Order.place at h
  by_cases h1 : (!o.canPlace) = true
  · rw [if_pos h1] at h; cases h
  · rw [if_neg h1] at h
    by_cases h2 : (!(o.status.canTransitionTo .placed)) = true
    · rw [if_pos h2] at h; cases h
    · rw [if_neg h2] at h
      exact (Order.make_eq_ok h).2

theorem Order.complete_ok_valid {o : Order} {now : Nat} {o' : Order}
    (h : o.complete now = .ok o') : o'.Valid := by
  unfold Order.complete at h
  by_cases h1 : (!(o.status.canTransitionTo .completed)) = true
  · rw [if_pos h1] at h; cases h
  · rw [if_neg h1] at h
    exact (Order.make_eq_ok h).2

theorem Order.cancel_ok_valid {o : Order} {now : Nat} {o' : Order}
    (h : o.cancel now = .ok o') : o'.Valid := by
  unfold Order.cancel at h
  by_cases h1 : (!(o.status.canTransitionTo .cancelled)) = true
  · rw [if_pos h1] at h; cases h
  · rw [if_neg h1] at h
    exact (Order.make_eq_ok h).2

theorem Order.create_ok_valid {id : OrderId} {cid cur : String} {now : Nat} {o : Order}
    (h : Order.create id cid cur now = .ok o) : o.Valid := by
  unfold Order.create at h
  rcases hz : Money.zero cur with e | z <;> rw [hz] at h
  · cases h
  · exact (Order.make_eq_ok h).2

theorem step_ok_valid {now : Nat} {o : Order} {c : Command} {o' : Order}
    (h : step now o c = .ok o') : o'.Valid := by
  cases c with
  | addItem b q p => exact Order.addItem_ok_valid h
  | removeItem b => exact Order.removeItem_ok_valid h
  | updateItemQuantity b q => exact Order.updateItemQuantity_ok_valid h
  | place => exact Order.place_ok_valid h
  | complete => exact Order.complete_ok_valid h
  | cancel => exact Order.cancel_ok_valid h

theorem runCommands_ok_valid :
    ∀ {cmds : List (Nat × Command)} {o o' : Order},
      o.Valid → runCommands o cmds = .ok o' → o'.Valid
  | [], o, o', hv, h => by
    injection h with h
    exact h ▸ hv
  | (now, c) :: rest, o, o', hv, h => by
    simp only [runCommands] at h
    rcases hs : step now o c with e | next <;> rw [hs] at h
    · cases h
    · exact runCommands_ok_valid (step_ok_valid hs) h

/-! Machinery for the merge behaviour of `addItem`. -/

theorem length_replaceFirst {B : String} {u : OrderItem} :
    ∀ (l : List OrderItem), (replaceFirst B u l).length = l.length
  | [] => rfl
  | it :: rest => by
    simp only [replaceFirst]
    split <;> simp [length_replaceFirst rest]

theorem head?_replaceFirst {B : String} {u : OrderItem} :
    ∀ {l : List OrderItem} {f : OrderItem},
      (replaceFirst B u l).head? = some f → f = u ∨ l.head? = some f
  | [], f, h => by simp [replaceFirst] at h
  | it :: rest, f, h => by
    simp only [replaceFirst] at h
    split at h
    · injection h with h
      exact Or.inl h.symm
    · injection h with h
      exact Or.inr (by simp [h])

theorem calcTotal_ok_of_all {prev : Option Money} {l : List OrderItem} {c : String}
    (hne : l ≠ [])
    (hc : validCurrency c = true)
    (hheadcur : ∀ f ∈ l.head?, f.unitPrice.currency = c)
    (hall : ∀ it ∈ l, it.subtotal.currency = c ∧ 0 ≤ it.subtotal.amount) :
    Order.calculateTotalFromItems prev l = .ok ⟨subSum l, c⟩ := by
  cases l with
  | nil => exact absurd rfl hne
  | cons first rest =>
    have hfc : first.unitPrice.currency = c := hheadcur first rfl
    simp only [Order.calculateTotalFromItems, hfc]
    rw [Money.zero_ok hc, exceptBind_ok]
    simpa using foldlM_add_ok hc (first :: rest) 0 le_rfl hall

theorem itemsOk_of_valid {l : List OrderItem} {c : String}
    (hval : ∀ it ∈ l, it.Valid) (hcur : ∀ it ∈ l, it.unitPrice.currency = c) :
    ∀ it ∈ l, it.subtotal.currency = c ∧ 0 ≤ it.subtotal.amount := by
  intro it hit
  obtain ⟨hq, hpa, hpc, hst⟩ := OrderItem.valid_iff.mp (hval it hit)
  refine ⟨?_, ?_⟩
  · rw [hst]; exact hcur it hit
  · rw [hst]; exact mul_nonneg hpa hq.le

theorem Order.valid_total_amount {o : Order} {c : String}
    (hv : o.Valid) (hne : o.items ≠ [])
    (hc : validCurrency c = true)
    (hheadcur : ∀ f ∈ o.items.head?, f.unitPrice.currency = c)
    (hall : ∀ it ∈ o.items, it.subtotal.currency = c ∧ 0 ≤ it.subtotal.amount) :
    o.total.amount = subSum o.items ∧ o.total.currency = c := by
  obtain ⟨s, hcalc, heq⟩ := Order.valid_total hv
  rw [calcTotal_ok_of_all hne hc hheadcur hall] at hcalc
  injection hcalc with hs
  obtain ⟨h1, h2⟩ := Money.equals_iff.mp heq
  rw [h1, h2, ← hs]
  exact ⟨rfl, rfl⟩

/-- Shared merge lemma: on a Draft order built from valid parts that already
contains a line for `B`, `addItem B q p` replaces that line by the merged
line (old quantity plus `q`, at price `p`) and recomputes the total,
provided the merged quantity is positive. -/
theorem Order.addItem_merge {o : Order} {B : String} {q : ℚ} {p : Money} {ex : OrderItem}
    (hv : o.Valid)
    (hval : ∀ it ∈ o.items, it.Valid)
    (hdraft : o.status = .draft)
    (hfind : o.items.find? (fun it => it.bookId == B) = some ex)
    (hcur : ∀ it ∈ o.items, it.unitPrice.currency = p.currency)
    (hp : p.Valid)
    (hq : 0 < ex.quantity + q) :
    o.addItem B q p = .ok { o with
      items := replaceFirst B
        ⟨B, ex.quantity + q, p, ⟨p.amount * (ex.quantity + q), p.currency⟩⟩ o.items,
      total := ⟨o.total.amount - ex.subtotal.amount + p.amount * (ex.quantity + q),
        p.currency⟩ } := by
  obtain ⟨hpa, hpc⟩ := hp
  have hexmem : ex ∈ o.items := List.mem_of_find?_eq_some hfind
  have hne : o.items ≠ [] := by
    intro hbad; rw [hbad] at hexmem; cases hexmem
  have hallold : ∀ it ∈ o.items, it.subtotal.currency = p.currency ∧ 0 ≤ it.subtotal.amount :=
    itemsOk_of_valid hval hcur
  have hheadold : ∀ f ∈ o.items.head?, f.unitPrice.currency = p.currency := by
    intro f hf
    exact hcur f (List.mem_of_mem_head? hf)
  have htot := Order.valid_total_amount hv hne hpc hheadold hallold
  have hcanM : (!o.canModify) = false := by
    simp [Order.canModify, hdraft, OrderStatus.isDraft]
  have hcreate : OrderItem.create B (ex.quantity + q) p =
      .ok ⟨B, ex.quantity + q, p, ⟨p.amount * (ex.quantity + q), p.currency⟩⟩ :=
    OrderItem.create_ok hq ⟨hpa, hpc⟩
  have hnewne : replaceFirst B
      ⟨B, ex.quantity + q, p, ⟨p.amount * (ex.quantity + q), p.currency⟩⟩ o.items ≠ [] := by
    intro hbad
    have := @length_replaceFirst B
      ⟨B, ex.quantity + q, p, ⟨p.amount * (ex.quantity + q), p.currency⟩⟩ o.items
    rw [hbad] at this
    exact hne (List.length_eq_zero.mp this.symm)
  have hnewhead : ∀ f ∈ (replaceFirst B
      ⟨B, ex.quantity + q, p, ⟨p.amount * (ex.quantity + q), p.currency⟩⟩ o.items).head?,
      f.unitPrice.currency = p.currency := by
    intro f hf
    rcases head?_replaceFirst hf with h1 | h2
    · rw [h1]
    · exact hcur f (List.mem_of_mem_head? h2)
  have hnewall : ∀ it ∈ replaceFirst B
      ⟨B, ex.quantity + q, p, ⟨p.amount * (ex.quantity + q), p.currency⟩⟩ o.items,
      it.subtotal.currency = p.currency ∧ 0 ≤ it.subtotal.amount := by
    intro it hit
    rcases mem_replaceFirst hit with h1 | h2
    · rw [h1]
      exact ⟨rfl, mul_nonneg hpa hq.le⟩
    · exact hallold it h2
  have hsub : subSum (replaceFirst B
      ⟨B, ex.quantity + q, p, ⟨p.amount * (ex.quantity + q), p.currency⟩⟩ o.items) =
      o.total.amount - ex.subtotal.amount + p.amount * (ex.quantity + q) := by
    rw [subSum_replaceFirst hfind, htot.1]
  have hcalcnew : ∀ prev, Order.calculateTotalFromItems prev (replaceFirst B
      ⟨B, ex.quantity + q, p, ⟨p.amount * (ex.quantity + q), p.currency⟩⟩ o.items) =
      .ok ⟨o.total.amount - ex.subtotal.amount + p.amount * (ex.quantity + q), p.currency⟩ := by
    intro prev
    rw [calcTotal_ok_of_all hnewne hpc hnewhead hnewall, hsub]
  have hvalidnew : (Order.mk o.id o.customerId
      (replaceFirst B ⟨B, ex.quantity + q, p, ⟨p.amount * (ex.quantity + q), p.currency⟩⟩ o.items)
      ⟨o.total.amount - ex.subtotal.amount + p.amount * (ex.quantity + q), p.currency⟩
      o.status o.createdAt o.placedAt o.completedAt o.cancelledAt).Valid := by
    apply Order.valid_of_checks
    · exact ⟨_, hcalcnew _, Money.equals_self _⟩
    · simp [hdraft, OrderStatus.isPlaced]
    · simp [hdraft, OrderStatus.isCompleted]
    · simp [hdraft, OrderStatus.isCancelled]
  unfold Order.addItem
  rw [hcanM, if_neg (by simp), hfind]
  simp only [hcreate, exceptBind_ok]
  simp only [hcalcnew, exceptBind_ok]
  exact Order.make_ok_of_valid hvalidnew

/-! Further helper lemmas used by the main results. -/

theorem OrderStatus.isDraft_eq_false {s : OrderStatus} (h : s ≠ .draft) :
    s.isDraft = false := by
  cases s
  · exact absurd rfl h
  all_goals rfl

theorem Money.make_ne_negativeResult (a : ℚ) (c : String) :
    Money.make a c ≠ .error .negativeResult := by
  unfold Money.make
  split_ifs <;> simp

theorem Order.create_eval {id : OrderId} {cid cur : String} {now : Nat}
    (hc : validCurrency cur = true) :
    Order.create id cid cur now =
      .ok ⟨id, cid, [], ⟨0, cur⟩, .draft, now, none, none, none⟩ := by
  unfold Order.create
  rw [Money.zero_ok hc]
  apply Order.make_ok_of_valid
  apply Order.valid_of_checks
  · exact ⟨⟨0, cur⟩, by rw [calcTotal_nil]; exact Money.zero_ok hc, Money.equals_self _⟩
  · simp [OrderStatus.isPlaced]
  · simp [OrderStatus.isCompleted]
  · simp [OrderStatus.isCancelled]

theorem Order.valid_draft_single (id : OrderId) (cid : String) (it : OrderItem) (ca : Nat)
    (hc : validCurrency it.unitPrice.currency = true)
    (hsc : it.subtotal.currency = it.unitPrice.currency)
    (hsa : 0 ≤ it.subtotal.amount) :
    (Order.mk id cid [it] ⟨it.subtotal.amount, it.unitPrice.currency⟩
      .draft ca none none none).Valid := by
  apply Order.valid_of_checks
  · refine ⟨⟨it.subtotal.amount, it.unitPrice.currency⟩, ?_, Money.equals_self _⟩
    have h := @calcTotal_ok_of_all
      (some ⟨it.subtotal.amount, it.unitPrice.currency⟩) [it]
      it.unitPrice.currency (by simp) hc
      (by intro f hf; simp at hf; rw [hf])
      (by intro x hx; simp at hx; subst hx; exact ⟨hsc, hsa⟩)
    simpa [subSum] using h
  · simp [OrderStatus.isPlaced]
  · simp [OrderStatus.isCompleted]
  · simp [OrderStatus.isCancelled]

theorem Order.addItem_empty {o : Order} {B : String} {q : ℚ} {p : Money}
    (hdraft : o.status = .draft) (hempty : o.items = [])
    (hq : 0 < q) (hp : p.Valid) :
    o.addItem B q p = .ok { o with
      items := [⟨B, q, p, ⟨p.amount * q, p.currency⟩⟩],
      total := ⟨p.amount * q, p.currency⟩ } := by
  obtain ⟨hpa, hpc⟩ := hp
  have hcanM : (!o.canModify) = false := by
    simp [Order.canModify, hdraft, OrderStatus.isDraft]
  have hcalc : ∀ prev, Order.calculateTotalFromItems prev
      [⟨B, q, p, ⟨p.amount * q, p.currency⟩⟩] = .ok ⟨p.amount * q, p.currency⟩ := by
    intro prev
    have h := @calcTotal_ok_of_all prev
      [⟨B, q, p, ⟨p.amount * q, p.currency⟩⟩] p.currency
      (by simp) hpc
      (by intro f hf; simp at hf; rw [← hf])
      (by intro x hx; simp at hx; subst hx; exact ⟨rfl, mul_nonneg hpa hq.le⟩)
    simpa [subSum] using h
  unfold Order.addItem
  rw [hcanM, if_neg (by simp), hempty]
  simp only [List.find?_nil]
  rw [OrderItem.create_ok hq ⟨hpa, hpc⟩]
  simp only [exceptBind_ok, List.nil_append]
  simp only [hcalc, exceptBind_ok]
  apply Order.make_ok_of_valid
  apply Order.valid_of_checks
  · exact ⟨_, hcalc _, Money.equals_self _⟩
  · simp [hdraft, OrderStatus.isPlaced]
  · simp [hdraft, OrderStatus.isCompleted]
  · simp [hdraft, OrderStatus.isCancelled]

theorem OrderItem.make_ok_valid {B : String} {q : ℚ} {p st : Money} {it : OrderItem}
    (h : OrderItem.make B q p st = .ok it) : it.Valid ∧ it = ⟨B, q, p, st⟩ := by
  unfold OrderItem.make at h
  by_cases h1 : q ≤ 0
  · rw [if_pos h1] at h; cases h
  · rw [if_neg h1] at h
    by_cases h2 : p.amount < 0
    · rw [if_pos h2] at h; cases h
    · rw [if_neg h2] at h
      by_cases h3 : st.amount < 0
      · rw [if_pos h3] at h; cases h
      · rw [if_neg h3] at h
        rcases hm : p.multiply q with e | expected <;> rw [hm] at h
        · cases h
        · dsimp only at h
          by_cases h4 : st.equals expected = true
          · rw [if_pos h4] at h
            injection h with h
            subst h
            refine ⟨?_, rfl⟩
            unfold OrderItem.Valid OrderItem.reconstruct OrderItem.make
            dsimp only
            rw [if_neg h1, if_neg h2, if_neg h3, hm]
            dsimp only
            rw [if_pos h4]
          · rw [if_neg h4] at h; cases h

theorem OrderItem.create_gives_valid {B : String} {q : ℚ} {p : Money} {it : OrderItem}
    (h : OrderItem.create B q p = .ok it) : it.Valid := by
  unfold OrderItem.create at h
  rcases hm : p.multiply q with e | st <;> rw [hm] at h
  · cases h
  · exact (OrderItem.make_ok_valid h).1

theorem OrderItem.reconstruct_ok_valid {B : String} {q : ℚ} {p st : Money} {it : OrderItem}
    (h : OrderItem.reconstruct B q p st = .ok it) : it.Valid :=
  (OrderItem.make_ok_valid h).1

theorem OrderItem.valid_props {it : OrderItem} (h : it.Valid) :
    0 < it.quantity ∧ 0 ≤ it.unitPrice.amount ∧
      it.subtotal.amount = it.unitPrice.amount * it.quantity ∧
      it.subtotal.currency = it.unitPrice.currency := by
  obtain ⟨h1, h2, h3, h4⟩ := OrderItem.valid_iff.mp h
  exact ⟨h1, h2, by rw [h4], by rw [h4]⟩

/-! Main results, one per claim about the specification. -/

/-- C7: for Money values with different currencies, `add`, `subtract`,
`isGreaterThan` and `isLessThan` fail with the CurrencyMismatch class while
`equals` returns false without erroring; for same-currency operands,
`subtract` fails with the NegativeResult class exactly when the result
would be below zero. -/
theorem money_currency_discipline (m n : Money) :
    (m.currency ≠ n.currency →
      m.add n = .error .currencyMismatch ∧
      m.subtract n = .error .currencyMismatch ∧
      m.isGreaterThan n = .error .currencyMismatch ∧
      m.isLessThan n = .error .currencyMismatch ∧
      m.equals n = false) ∧
    (m.currency = n.currency →
      (m.subtract n = .error .negativeResult ↔ m.amount < n.amount)) := by
  constructor
  · intro hne
    refine ⟨?_, ?_, ?_, ?_, ?_⟩
    · simp [Money.add, hne]
    · simp [Money.subtract, hne]
    · simp [Money.isGreaterThan, hne]
    · simp [Money.isLessThan, hne]
    · simp [Money.equals, hne]
  · intro heq
    unfold Money.subtract
    rw [if_neg (by simp [heq])]
    by_cases hlt : m.amount - n.amount < 0
    · rw [if_pos hlt]
      simp [sub_neg.mp hlt]
    · rw [if_neg hlt]
      constructor
      · intro hbad
        exact absurd hbad (Money.make_ne_negativeResult _ _)
      · intro hlt2
        exact absurd (sub_neg.mpr hlt2) hlt

/-- Witness for C7 at the spec's own examples: USD 100 plus JPY 50 is a
currency mismatch, and JPY 100 minus JPY 150 is a negative result. -/
theorem money_currency_discipline_witness :
    Money.add ⟨100, "USD"⟩ ⟨50, "JPY"⟩ = .error .currencyMismatch ∧
    Money.subtract ⟨100, "JPY"⟩ ⟨150, "JPY"⟩ = .error .negativeResult := by
  constructor
  · exact ((money_currency_discipline ⟨100, "USD"⟩ ⟨50, "JPY"⟩).1 (by decide)).1
  · exact ((money_currency_discipline ⟨100, "JPY"⟩ ⟨150, "JPY"⟩).2 rfl).mpr (by norm_num)

/-- C4: an order in a terminal status (Completed or Cancelled) rejects
`complete` and `cancel` with the InvalidStatusTransition class, no command
whatsoever can produce a successor order from it, and consequently its
status never changes under any command sequence. -/
theorem terminal_states_sealed (o : Order)
    (hterm : o.status = .completed ∨ o.status = .cancelled) :
    (∀ now, o.complete now = .error .invalidStatusTransition) ∧
    (∀ now, o.cancel now = .error .invalidStatusTransition) ∧
    (∀ now c o', step now o c ≠ .ok o') ∧
    (∀ cmds o', runCommands o cmds = .ok o' → o'.status = o.status) := by
  have hct : ∀ t, o.status.canTransitionTo t = false := by
    intro t
    rcases hterm with h | h <;>
      simp [h, OrderStatus.canTransitionTo, OrderStatus.transitions]
  have hnd : o.status.isDraft = false := by
    rcases hterm with h | h <;> simp [h, OrderStatus.isDraft]
  have hcompl : ∀ now, o.complete now = .error .invalidStatusTransition := by
    intro now; simp [Order.complete, hct]
  have hcanc : ∀ now, o.cancel now = .error .invalidStatusTransition := by
    intro now; simp [Order.cancel, hct]
  have hstep : ∀ now c o', step now o c ≠ .ok o' := by
    intro now c o' h
    cases c with
    | addItem b qy pr => simp [step, Order.addItem, Order.canModify, hnd] at h
    | removeItem b => simp [step, Order.removeItem, Order.canModify, hnd] at h
    | updateItemQuantity b qy => simp [step, Order.updateItemQuantity, Order.canModify, hnd] at h
    | place => simp [step, Order.place, Order.canPlace, hnd] at h
    | complete => rw [step, hcompl now] at h; cases h
    | cancel => rw [step, hcanc now] at h; cases h
  refine ⟨hcompl, hcanc, hstep, ?_⟩
  intro cmds o' h
  cases cmds with
  | nil =>
    injection h with h
    rw [← h]
  | cons hd rest =>
    obtain ⟨now, c⟩ := hd
    simp only [runCommands] at h
    rcases hs : step now o c with e | nxt <;> rw [hs] at h
    · cases h
    · exact absurd hs (hstep now c nxt)

/-- Witness for C4 at a concrete cancelled order. -/
theorem terminal_states_sealed_witness :
    ((⟨⟨"id1"⟩, "c1", [], ⟨0, "JPY"⟩, .cancelled, 0, none, none, some 1⟩ : Order).status =
        .completed ∨
      (⟨⟨"id1"⟩, "c1", [], ⟨0, "JPY"⟩, .cancelled, 0, none, none, some 1⟩ : Order).status =
        .cancelled) ∧
    Order.complete ⟨⟨"id1"⟩, "c1", [], ⟨0, "JPY"⟩, .cancelled, 0, none, none, some 1⟩ 5 =
      .error .invalidStatusTransition ∧
    Order.cancel ⟨⟨"id1"⟩, "c1", [], ⟨0, "JPY"⟩, .cancelled, 0, none, none, some 1⟩ 5 =
      .error .invalidStatusTransition := by
  have h := terminal_states_sealed
    ⟨⟨"id1"⟩, "c1", [], ⟨0, "JPY"⟩, .cancelled, 0, none, none, some 1⟩ (Or.inr rfl)
  exact ⟨Or.inr rfl, h.1 5, h.2.1 5⟩

/-- C5: on a Placed, Completed or Cancelled order, `addItem`, `removeItem`
and `updateItemQuantity` all fail with the OrderNotModifiable class.  In
this functional embedding the receiver is untouched by construction
(commands of the source never mutate, they build new instances), so the
unchanged-fields half of the claim holds by the very shape of the model. -/
theorem draft_only_mutation (o : Order)
    (h : o.status = .placed ∨ o.status = .completed ∨ o.status = .cancelled) :
    (∀ B q p, o.addItem B q p = .error .orderNotModifiable) ∧
    (∀ B, o.removeItem B = .error .orderNotModifiable) ∧
    (∀ B q, o.updateItemQuantity B q = .error .orderNotModifiable) := by
  have hnd : o.status.isDraft = false := by
    rcases h with h | h | h <;> simp [h, OrderStatus.isDraft]
  refine ⟨?_, ?_, ?_⟩
  · intro B q p; simp [Order.addItem, Order.canModify, hnd]
  · intro B; simp [Order.removeItem, Order.canModify, hnd]
  · intro B q; simp [Order.updateItemQuantity, Order.canModify, hnd]

/-- Witness for C5 at a concrete placed order. -/
theorem draft_only_mutation_witness :
    ((⟨⟨"id1"⟩, "c1", [], ⟨0, "JPY"⟩, .placed, 0, some 1, none, none⟩ : Order).status =
        .placed ∨
      (⟨⟨"id1"⟩, "c1", [], ⟨0, "JPY"⟩, .placed, 0, some 1, none, none⟩ : Order).status =
        .completed ∨
      (⟨⟨"id1"⟩, "c1", [], ⟨0, "JPY"⟩, .placed, 0, some 1, none, none⟩ : Order).status =
        .cancelled) ∧
    Order.addItem ⟨⟨"id1"⟩, "c1", [], ⟨0, "JPY"⟩, .placed, 0, some 1, none, none⟩
      "b" 1 ⟨100, "JPY"⟩ = .error .orderNotModifiable ∧
    Order.removeItem ⟨⟨"id1"⟩, "c1", [], ⟨0, "JPY"⟩, .placed, 0, some 1, none, none⟩
      "b" = .error .orderNotModifiable ∧
    Order.updateItemQuantity ⟨⟨"id1"⟩, "c1", [], ⟨0, "JPY"⟩, .placed, 0, some 1, none, none⟩
      "b" 2 = .error .orderNotModifiable := by
  have h := draft_only_mutation
    ⟨⟨"id1"⟩, "c1", [], ⟨0, "JPY"⟩, .placed, 0, some 1, none, none⟩ (Or.inl rfl)
  exact ⟨Or.inl rfl, h.1 "b" 1 ⟨100, "JPY"⟩, h.2.1 "b", h.2.2 "b" 2⟩

/-- C3: for every (constructible, hence validated) order, `place` succeeds
exactly when the item list is non-empty and the status is Draft, failing
with the CannotPlaceEmptyOrder class otherwise; on success the returned
order has status Placed, `placedAt = now`, and unchanged id, customer,
items, total and other timestamps. -/
theorem place_characterization (o : Order) (now : Nat) (hv : o.Valid) :
    (o.items ≠ [] ∧ o.status = .draft →
      o.place now = .ok { o with status := .placed, placedAt := some now }) ∧
    (¬(o.items ≠ [] ∧ o.status = .draft) →
      o.place now = .error .cannotPlaceEmptyOrder) := by
  constructor
  · rintro ⟨hne, hdraft⟩
    have hcp : o.canPlace = true := by
      simp [Order.canPlace, hdraft, OrderStatus.isDraft, hne]
    have hct : o.status.canTransitionTo .placed = true := by
      simp [hdraft, OrderStatus.canTransitionTo, OrderStatus.transitions]
    unfold Order.place
    rw [if_neg (by simp [hcp]), if_neg (by simp [hct])]
    apply Order.make_ok_of_valid
    apply Order.valid_of_checks
    · exact @Order.valid_total o hv
    · simp [OrderStatus.isPlaced]
    · simp [OrderStatus.isCompleted]
    · simp [OrderStatus.isCancelled]
  · intro hnot
    have hcp : o.canPlace = false := by
      rcases not_and_or.mp hnot with h1 | h2
      · have he : o.items = [] := not_not.mp h1
        simp [Order.canPlace, he]
      · simp [Order.canPlace, OrderStatus.isDraft_eq_false h2]
    unfold Order.place
    rw [if_pos (by simp [hcp])]

/-- Witness for C3 at a concrete one-line draft order placed at time 7. -/
theorem place_characterization_witness :
    ((⟨⟨"id1"⟩, "c1", [⟨"b", 1, ⟨100, "JPY"⟩, ⟨100, "JPY"⟩⟩], ⟨100, "JPY"⟩,
        .draft, 0, none, none, none⟩ : Order).items ≠ [] ∧
      (⟨⟨"id1"⟩, "c1", [⟨"b", 1, ⟨100, "JPY"⟩, ⟨100, "JPY"⟩⟩], ⟨100, "JPY"⟩,
        .draft, 0, none, none, none⟩ : Order).status = .draft) ∧
    Order.place ⟨⟨"id1"⟩, "c1", [⟨"b", 1, ⟨100, "JPY"⟩, ⟨100, "JPY"⟩⟩], ⟨100, "JPY"⟩,
        .draft, 0, none, none, none⟩ 7 =
      .ok ⟨⟨"id1"⟩, "c1", [⟨"b", 1, ⟨100, "JPY"⟩, ⟨100, "JPY"⟩⟩], ⟨100, "JPY"⟩,
        .placed, 0, some 7, none, none⟩ := by
  have hv : (⟨⟨"id1"⟩, "c1", [⟨"b", 1, ⟨100, "JPY"⟩, ⟨100, "JPY"⟩⟩], ⟨100, "JPY"⟩,
      .draft, 0, none, none, none⟩ : Order).Valid :=
    Order.valid_draft_single ⟨"id1"⟩ "c1" ⟨"b", 1, ⟨100, "JPY"⟩, ⟨100, "JPY"⟩⟩ 0
      (by decide) rfl (by decide)
  refine ⟨⟨by simp, rfl⟩, ?_⟩
  exact (place_characterization _ 7 hv).1 ⟨by simp, rfl⟩

/-- C8: reconstructing an order from exactly its own getter values
succeeds and returns an order with all observable fields equal (here:
the very same value). -/
theorem reconstruct_round_trip (o : Order) (hv : o.Valid) :
    Order.reconstruct o.id o.customerId o.items o.total o.status o.createdAt
      o.placedAt o.completedAt o.cancelledAt = .ok o := by
  unfold Order.reconstruct
  exact Order.make_ok_of_valid hv

/-- Witness for C8 at a concrete one-line draft order. -/
theorem reconstruct_round_trip_witness :
    Order.reconstruct ⟨"id1"⟩ "c1" [⟨"b", 1, ⟨100, "JPY"⟩, ⟨100, "JPY"⟩⟩] ⟨100, "JPY"⟩
      .draft 0 none none none =
      .ok ⟨⟨"id1"⟩, "c1", [⟨"b", 1, ⟨100, "JPY"⟩, ⟨100, "JPY"⟩⟩], ⟨100, "JPY"⟩,
        .draft, 0, none, none, none⟩ := by
  have hv : (⟨⟨"id1"⟩, "c1", [⟨"b", 1, ⟨100, "JPY"⟩, ⟨100, "JPY"⟩⟩], ⟨100, "JPY"⟩,
      .draft, 0, none, none, none⟩ : Order).Valid :=
    Order.valid_draft_single ⟨"id1"⟩ "c1" ⟨"b", 1, ⟨100, "JPY"⟩, ⟨100, "JPY"⟩⟩ 0
      (by decide) rfl (by decide)
  exact reconstruct_round_trip _ hv

/-- C1: along every successful command sequence started from
`Order.create`, the resulting order satisfies the total invariant: the
recomputed sum of its line subtotals exists (no currency mismatch) and
`Money.equals` the stored total (same amount, same currency).  Since the
theorem quantifies over all command lists and every prefix of a successful
run is itself a successful run, the invariant holds after every step. -/
theorem order_total_invariant (id : OrderId) (cid cur : String) (t0 : Nat)
    (cmds : List (Nat × Command)) (o0 o : Order)
    (hcreate : Order.create id cid cur t0 = .ok o0)
    (hrun : runCommands o0 cmds = .ok o) :
    ∃ s, Order.calculateTotalFromItems (some o.total) o.items = .ok s ∧
      o.total.equals s = true :=
  Order.valid_total (runCommands_ok_valid (Order.create_ok_valid hcreate) hrun)

/-- Witness for C1: create an order and add one line, then check the
invariant of the result. -/
theorem order_total_invariant_witness :
    Order.create ⟨"id1"⟩ "c1" "JPY" 0 =
      .ok ⟨⟨"id1"⟩, "c1", [], ⟨0, "JPY"⟩, .draft, 0, none, none, none⟩ ∧
    runCommands ⟨⟨"id1"⟩, "c1", [], ⟨0, "JPY"⟩, .draft, 0, none, none, none⟩
      [(1, .addItem "b" 1 ⟨100, "JPY"⟩)] =
      .ok ⟨⟨"id1"⟩, "c1", [⟨"b", 1, ⟨100, "JPY"⟩, ⟨100, "JPY"⟩⟩], ⟨100, "JPY"⟩,
        .draft, 0, none, none, none⟩ ∧
    ∃ s, Order.calculateTotalFromItems (some (⟨100, "JPY"⟩ : Money))
        [⟨"b", 1, ⟨100, "JPY"⟩, ⟨100, "JPY"⟩⟩] = .ok s ∧
      Money.equals ⟨100, "JPY"⟩ s = true := by
  have h0 : Order.create ⟨"id1"⟩ "c1" "JPY" 0 =
      .ok ⟨⟨"id1"⟩, "c1", [], ⟨0, "JPY"⟩, .draft, 0, none, none, none⟩ :=
    Order.create_eval (by decide)
  have hadd : Order.addItem
      ⟨⟨"id1"⟩, "c1", [], ⟨0, "JPY"⟩, .draft, 0, none, none, none⟩ "b" 1 ⟨100, "JPY"⟩ =
      .ok ⟨⟨"id1"⟩, "c1", [⟨"b", 1, ⟨100, "JPY"⟩, ⟨100, "JPY"⟩⟩], ⟨100, "JPY"⟩,
        .draft, 0, none, none, none⟩ := by
    have h := @Order.addItem_empty
      ⟨⟨"id1"⟩, "c1", [], ⟨0, "JPY"⟩, .draft, 0, none, none, none⟩
      "b" 1 ⟨100, "JPY"⟩ rfl rfl (by norm_num)
      ⟨by norm_num, by decide⟩
    simpa using h
  have h1 : runCommands ⟨⟨"id1"⟩, "c1", [], ⟨0, "JPY"⟩, .draft, 0, none, none, none⟩
      [(1, Command.addItem "b" 1 ⟨100, "JPY"⟩)] =
      .ok ⟨⟨"id1"⟩, "c1", [⟨"b", 1, ⟨100, "JPY"⟩, ⟨100, "JPY"⟩⟩], ⟨100, "JPY"⟩,
        .draft, 0, none, none, none⟩ := by
    simp only [runCommands, step]
    rw [hadd]
  exact ⟨h0, h1, order_total_invariant ⟨"id1"⟩ "c1" "JPY" 0 _ _ _ h0 h1⟩

/-- C2: adding a book that already has a line on a Draft order merges:
the result has exactly one line for that book, with quantity equal to the
old quantity plus the new one, the new call's unit price, and subtotal
equal to that price times the merged quantity; the total is recomputed
accordingly.  The hypotheses say the order and its lines are constructible
values (validated), the line for `B` is unique (which every order built
through `addItem` satisfies), and the new price is in the order's
currency (otherwise the recomputation fails with a currency mismatch
instead of succeeding). -/
theorem addItem_merge_on_add {o : Order} {B : String} {q : ℚ} {p : Money} {ex : OrderItem}
    (hv : o.Valid)
    (hval : ∀ it ∈ o.items, it.Valid)
    (hdraft : o.status = .draft)
    (hone : o.items.countP (fun it => it.bookId == B) = 1)
    (hfind : o.items.find? (fun it => it.bookId == B) = some ex)
    (hcur : ∀ it ∈ o.items, it.unitPrice.currency = p.currency)
    (hp : p.Valid)
    (hq : 0 < q) :
    ∃ o', o.addItem B q p = .ok o' ∧
      o'.items.countP (fun it => it.bookId == B) = 1 ∧
      o'.items.find? (fun it => it.bookId == B) =
        some ⟨B, ex.quantity + q, p, ⟨p.amount * (ex.quantity + q), p.currency⟩⟩ ∧
      o'.total = ⟨o.total.amount - ex.subtotal.amount + p.amount * (ex.quantity + q),
        p.currency⟩ := by
  have hexq : 0 < ex.quantity :=
    (OrderItem.valid_props (hval ex (List.mem_of_find?_eq_some hfind))).1
  have hq2 : 0 < ex.quantity + q := by linarith
  refine ⟨_, Order.addItem_merge hv hval hdraft hfind hcur hp hq2, ?_, ?_, rfl⟩
  · exact (countP_replaceFirst (by simp) hfind).trans hone
  · exact find?_replaceFirst (by simp) hfind

/-- Witness for C2 at the spec's own example: a draft order holding B1 at
quantity 2 and price 1000 JPY; adding B1 at quantity 3 and price 1200 JPY
yields one line with quantity 5, price 1200, subtotal 6000, total 6000. -/
theorem addItem_merge_on_add_witness :
    ∃ o', Order.addItem ⟨⟨"id1"⟩, "c1", [⟨"B1", 2, ⟨1000, "JPY"⟩, ⟨2000, "JPY"⟩⟩],
        ⟨2000, "JPY"⟩, .draft, 0, none, none, none⟩ "B1" 3 ⟨1200, "JPY"⟩ = .ok o' ∧
      o'.items.countP (fun it => it.bookId == "B1") = 1 ∧
      o'.items.find? (fun it => it.bookId == "B1") =
        some ⟨"B1", 5, ⟨1200, "JPY"⟩, ⟨6000, "JPY"⟩⟩ ∧
      o'.total = ⟨6000, "JPY"⟩ := by
  have hv : (⟨⟨"id1"⟩, "c1", [⟨"B1", 2, ⟨1000, "JPY"⟩, ⟨2000, "JPY"⟩⟩],
      ⟨2000, "JPY"⟩, .draft, 0, none, none, none⟩ : Order).Valid :=
    Order.valid_draft_single ⟨"id1"⟩ "c1" ⟨"B1", 2, ⟨1000, "JPY"⟩, ⟨2000, "JPY"⟩⟩ 0
      (by decide) rfl (by decide)
  have hval : ∀ it ∈ (⟨⟨"id1"⟩, "c1", [⟨"B1", 2, ⟨1000, "JPY"⟩, ⟨2000, "JPY"⟩⟩],
      ⟨2000, "JPY"⟩, .draft, 0, none, none, none⟩ : Order).items, it.Valid := by
    intro it hit
    simp at hit
    subst hit
    exact OrderItem.valid_iff.mpr ⟨by norm_num, by norm_num, by decide, by norm_num⟩
  have h := @addItem_merge_on_add
    ⟨⟨"id1"⟩, "c1", [⟨"B1", 2, ⟨1000, "JPY"⟩, ⟨2000, "JPY"⟩⟩],
      ⟨2000, "JPY"⟩, .draft, 0, none, none, none⟩
    "B1" 3 ⟨1200, "JPY"⟩ ⟨"B1", 2, ⟨1000, "JPY"⟩, ⟨2000, "JPY"⟩⟩
    hv hval rfl (by decide) (by decide)
    (by intro it hit; simp at hit; subst hit; rfl) ⟨by norm_num, by decide⟩ (by norm_num)
  obtain ⟨o', h1, h2, h3, h4⟩ := h
  norm_num at h3 h4
  exact ⟨o', h1, h2, h3, h4⟩

/-- C6: the recalculation algorithm.  First, the source's
`calculateTotalFromItems` coincides with the spec-worded policy
`specTotalRecalculation` (they read the seed currency off the first item's
unit price and subtotal respectively, equal whenever that item is
coherent).  Second, after every successful items-changing command
(`addItem`, `removeItem`, `updateItemQuantity`) the stored total is
exactly the recomputation over the new item list.  Third, a
differing-currency item makes the fold fail with the CurrencyMismatch
class rather than produce a wrong total. -/
theorem total_recalculation_policy :
    (∀ prev items,
      (∀ f ∈ List.head? items, f.subtotal.currency = f.unitPrice.currency) →
      Order.calculateTotalFromItems prev items = specTotalRecalculation prev items) ∧
    (∀ (o : Order) B q p o', o.addItem B q p = .ok o' →
      Order.calculateTotalFromItems (some o.total) o'.items = .ok o'.total) ∧
    (∀ (o : Order) B o', o.removeItem B = .ok o' →
      Order.calculateTotalFromItems (some o.total) o'.items = .ok o'.total) ∧
    (∀ (o : Order) B q o', o.updateItemQuantity B q = .ok o' →
      Order.calculateTotalFromItems (some o.total) o'.items = .ok o'.total) ∧
    (∀ prev (first : OrderItem) rest,
      validCurrency first.unitPrice.currency = true →
      (∀ it ∈ first :: rest, 0 ≤ it.subtotal.amount) →
      (∃ it ∈ first :: rest, it.subtotal.currency ≠ first.unitPrice.currency) →
      Order.calculateTotalFromItems prev (first :: rest) = .error .currencyMismatch) := by
  refine ⟨?_, ?_, ?_, ?_, ?_⟩
  · intro prev items hhead
    cases items with
    | nil => rfl
    | cons first rest =>
      have hf : first.subtotal.currency = first.unitPrice.currency := hhead first rfl
      simp only [Order.calculateTotalFromItems, specTotalRecalculation, hf]
  · intro o B q p o' h
    unfold Order.addItem at h
    by_cases hcm : (!o.canModify) = true
    · rw [if_pos hcm] at h; cases h
    · rw [if_neg hcm] at h
      rcases hm : o.items.find? (fun it => it.bookId == B) with _ | ex <;> rw [hm] at h
      all_goals
        rcases exceptBind_eq_ok.mp h with ⟨u, hu, h2⟩
        rcases exceptBind_eq_ok.mp h2 with ⟨t, ht, h3⟩
        obtain ⟨ho, _⟩ := Order.make_eq_ok h3
        subst ho
        exact ht
  · intro o B o' h
    unfold Order.removeItem at h
    by_cases hcm : (!o.canModify) = true
    · rw [if_pos hcm] at h; cases h
    · rw [if_neg hcm] at h
      rcases hm : o.items.find? (fun it => it.bookId == B) with _ | ex <;> rw [hm] at h
      · cases h
      · rcases exceptBind_eq_ok.mp h with ⟨t, ht, h3⟩
        obtain ⟨ho, _⟩ := Order.make_eq_ok h3
        subst ho
        exact ht
  · intro o B q o' h
    unfold Order.updateItemQuantity at h
    by_cases hcm : (!o.canModify) = true
    · rw [if_pos hcm] at h; cases h
    · rw [if_neg hcm] at h
      rcases hm : o.items.find? (fun it => it.bookId == B) with _ | ex <;> rw [hm] at h
      · cases h
      · rcases exceptBind_eq_ok.mp h with ⟨u, hu, h2⟩
        rcases exceptBind_eq_ok.mp h2 with ⟨t, ht, h3⟩
        obtain ⟨ho, _⟩ := Order.make_eq_ok h3
        subst ho
        exact ht
  · intro prev first rest hc hpos hex
    exact calcTotal_cons_mismatch hc hpos hex

/-- Witness for C6: the source policy and the spec policy agree on a
concrete empty and one-line list, and a JPY/USD mix fails with a currency
mismatch. -/
theorem total_recalculation_policy_witness :
    Order.calculateTotalFromItems (some ⟨7, "JPY"⟩) [] =
      specTotalRecalculation (some ⟨7, "JPY"⟩) [] ∧
    Order.calculateTotalFromItems none [⟨"a", 1, ⟨100, "JPY"⟩, ⟨100, "JPY"⟩⟩] =
      specTotalRecalculation none [⟨"a", 1, ⟨100, "JPY"⟩, ⟨100, "JPY"⟩⟩] ∧
    Order.calculateTotalFromItems none
      [⟨"a", 1, ⟨100, "JPY"⟩, ⟨100, "JPY"⟩⟩, ⟨"b", 1, ⟨50, "USD"⟩, ⟨50, "USD"⟩⟩] =
      .error .currencyMismatch := by
  refine ⟨?_, ?_, ?_⟩
  · exact total_recalculation_policy.1 (some ⟨7, "JPY"⟩) [] (by intro f hf; cases hf)
  · exact total_recalculation_policy.1 none [⟨"a", 1, ⟨100, "JPY"⟩, ⟨100, "JPY"⟩⟩]
      (by intro f hf; simp at hf; rw [← hf])
  · exact total_recalculation_policy.2.2.2.2 none ⟨"a", 1, ⟨100, "JPY"⟩, ⟨100, "JPY"⟩⟩
      [⟨"b", 1, ⟨50, "USD"⟩, ⟨50, "USD"⟩⟩] (by decide) (by decide)
      ⟨⟨"b", 1, ⟨50, "USD"⟩, ⟨50, "USD"⟩⟩, by simp, by decide⟩

/-- C9 counterexample: `OrderItem.create` accepts the non-integral
quantity 5/2 (the source only checks `quantity <= 0`), so the claim that
every accepted quantity is an integer fails. -/
theorem orderitem_quantity_not_integral :
    OrderItem.create "B1" (5/2) ⟨100, "JPY"⟩ =
      .ok ⟨"B1", 5/2, ⟨100, "JPY"⟩, ⟨100 * (5/2), "JPY"⟩⟩ ∧
    ¬ ∃ n : ℤ, (5/2 : ℚ) = (n : ℚ) := by
  constructor
  · exact OrderItem.create_ok (by norm_num) ⟨by norm_num, by decide⟩
  · rintro ⟨n, hn⟩
    have hden : ((5/2 : ℚ)).den = 1 := by rw [hn]; exact Rat.den_intCast n
    norm_num [Rat.den] at hden

/-- C9 (amended): every OrderItem accepted by `create` or `reconstruct`
has quantity greater than 0 (a number, not necessarily an integer),
non-negative unit price, and subtotal exactly `unitPrice × quantity` in
the unit price's currency; and `reconstruct` fails with the
SubtotalMismatch class whenever the supplied subtotal differs from
`unitPrice × quantity` while the earlier checks (positive quantity,
non-negative amounts, valid currency) pass. -/
theorem orderitem_invariants :
    (∀ B q (p : Money) it, OrderItem.create B q p = .ok it →
      0 < it.quantity ∧ 0 ≤ it.unitPrice.amount ∧
      it.subtotal.amount = it.unitPrice.amount * it.quantity ∧
      it.subtotal.currency = it.unitPrice.currency) ∧
    (∀ B q (p st : Money) it, OrderItem.reconstruct B q p st = .ok it →
      0 < it.quantity ∧ 0 ≤ it.unitPrice.amount ∧
      it.subtotal.amount = it.unitPrice.amount * it.quantity ∧
      it.subtotal.currency = it.unitPrice.currency) ∧
    (∀ B q (p st : Money), 0 < q → 0 ≤ p.amount → 0 ≤ st.amount →
      validCurrency p.currency = true →
      st.equals ⟨p.amount * q, p.currency⟩ = false →
      OrderItem.reconstruct B q p st = .error .subtotalMismatch) := by
  refine ⟨?_, ?_, ?_⟩
  · intro B q p it h
    exact OrderItem.valid_props (OrderItem.create_gives_valid h)
  · intro B q p st it h
    exact OrderItem.valid_props (OrderItem.reconstruct_ok_valid h)
  · intro B q p st hq hpa hsta hc hne
    unfold OrderItem.reconstruct OrderItem.make
    rw [if_neg (not_le.mpr hq), if_neg (not_lt.mpr hpa), if_neg (not_lt.mpr hsta),
      Money.multiply_ok hq.le hpa hc]
    dsimp only
    rw [if_neg (by simp [hne])]

/-- Witness for C9 at a concrete mismatching reconstruction: 1999 is not
1000 times 2. -/
theorem orderitem_invariants_witness :
    OrderItem.reconstruct "B1" 2 ⟨1000, "JPY"⟩ ⟨1999, "JPY"⟩ =
      .error .subtotalMismatch := by
  have heqf : Money.equals ⟨1999, "JPY"⟩ ⟨(1000 : ℚ) * 2, "JPY"⟩ = false := by
    simp [Money.equals]
    norm_num
  exact orderitem_invariants.2.2 "B1" 2 ⟨1000, "JPY"⟩ ⟨1999, "JPY"⟩
    (by norm_num) (by norm_num) (by norm_num) (by decide) heqf

/-- C10 counterexample: on a fresh Draft order with no line for B1,
`addItem` with quantity -1 fails with Money's multiplier check (the
InvalidMultiplier class, source message `Multiplier cannot be negative`),
not with OrderItem's own quantity check (the InvalidQuantity class,
source message `Quantity must be positive`) as the claim states: the
subtotal computation `unitPrice.multiply(quantity)` in `OrderItem.create`
runs before the constructor's quantity validation. -/
theorem addItem_negative_quantity_error_class :
    Order.addItem ⟨⟨"id1"⟩, "c1", [], ⟨0, "JPY"⟩, .draft, 0, none, none, none⟩
      "B1" (-1) ⟨100, "JPY"⟩ = .error .invalidMultiplier ∧
    DomainError.invalidMultiplier ≠ DomainError.invalidQuantity := by
  constructor
  · unfold Order.addItem
    rw [if_neg (by decide)]
    simp only [List.find?_nil]
    simp only [OrderItem.create_neg (by norm_num : (-1 : ℚ) < 0), exceptBind_error]
  · decide

/-- C10 (amended): `addItem` does not validate its quantity argument
directly.  On a Draft order holding a (unique) line for B with quantity
n, `addItem B q p` with any `q` succeeds whenever `n + q > 0`, producing
the single merged line at quantity `n + q` and price `p`; it fails inside
`OrderItem.create` otherwise — via Money's multiplier check
(InvalidMultiplier) when the merged quantity is negative, and via
OrderItem's quantity check (InvalidQuantity) when it is zero.  With no
line for B, a negative quantity fails via the multiplier check and a zero
quantity via the quantity check. -/
theorem addItem_quantity_policy :
    (∀ (o : Order) B q (p : Money) (ex : OrderItem), o.Valid →
      (∀ it ∈ o.items, it.Valid) →
      o.status = .draft →
      o.items.countP (fun it => it.bookId == B) = 1 →
      o.items.find? (fun it => it.bookId == B) = some ex →
      (∀ it ∈ o.items, it.unitPrice.currency = p.currency) →
      p.Valid → q ≤ 0 → 0 < ex.quantity + q →
      ∃ o', o.addItem B q p = .ok o' ∧
        o'.items.countP (fun it => it.bookId == B) = 1 ∧
        o'.items.find? (fun it => it.bookId == B) =
          some ⟨B, ex.quantity + q, p, ⟨p.amount * (ex.quantity + q), p.currency⟩⟩) ∧
    (∀ (o : Order) B q (p : Money) (ex : OrderItem), o.status = .draft →
      o.items.find? (fun it => it.bookId == B) = some ex →
      ex.quantity + q < 0 →
      o.addItem B q p = .error .invalidMultiplier) ∧
    (∀ (o : Order) B q (p : Money) (ex : OrderItem), o.status = .draft →
      o.items.find? (fun it => it.bookId == B) = some ex →
      ex.quantity + q = 0 → 0 ≤ p.amount → validCurrency p.currency = true →
      o.addItem B q p = .error .invalidQuantity) ∧
    (∀ (o : Order) B q (p : Money), o.status = .draft →
      o.items.find? (fun it => it.bookId == B) = none →
      (q < 0 → o.addItem B q p = .error .invalidMultiplier) ∧
      (q = 0 → 0 ≤ p.amount → validCurrency p.currency = true →
        o.addItem B q p = .error .invalidQuantity)) := by
  refine ⟨?_, ?_, ?_, ?_⟩
  · intro o B q p ex hv hval hdraft hone hfind hcur hp hq hq2
    refine ⟨_, Order.addItem_merge hv hval hdraft hfind hcur hp hq2, ?_, ?_⟩
    · exact (countP_replaceFirst (by simp) hfind).trans hone
    · exact find?_replaceFirst (by simp) hfind
  · intro o B q p ex hdraft hfind hneg
    have hcanM : (!o.canModify) = false := by
      simp [Order.canModify, hdraft, OrderStatus.isDraft]
    unfold Order.addItem
    rw [hcanM, if_neg (by simp), hfind]
    simp only [OrderItem.create_neg hneg, exceptBind_error]
  · intro o B q p ex hdraft hfind hzero hpa hpc
    have hcreate0 : OrderItem.create B (ex.quantity + q) p = .error .invalidQuantity := by
      rw [hzero]; exact OrderItem.create_zero hpa hpc
    have hcanM : (!o.canModify) = false := by
      simp [Order.canModify, hdraft, OrderStatus.isDraft]
    unfold Order.addItem
    rw [hcanM, if_neg (by simp), hfind]
    simp only [hcreate0, exceptBind_error]
  · intro o B q p hdraft hfind
    have hcanM : (!o.canModify) = false := by
      simp [Order.canModify, hdraft, OrderStatus.isDraft]
    constructor
    · intro hqneg
      unfold Order.addItem
      rw [hcanM, if_neg (by simp), hfind]
      simp only [OrderItem.create_neg hqneg, exceptBind_error]
    · intro hq0 hpa hpc
      subst hq0
      unfold Order.addItem
      rw [hcanM, if_neg (by simp), hfind]
      simp only [OrderItem.create_zero hpa hpc, exceptBind_error]

/-- Witness for C10: on a draft order holding B1 at quantity 5, adding
quantity -2 merges down to quantity 3 and succeeds, while adding
quantity -7 (merged quantity -2) fails with the multiplier check. -/
theorem addItem_quantity_policy_witness :
    (∃ o', Order.addItem ⟨⟨"id1"⟩, "c1", [⟨"B1", 5, ⟨100, "JPY"⟩, ⟨500, "JPY"⟩⟩],
        ⟨500, "JPY"⟩, .draft, 0, none, none, none⟩ "B1" (-2) ⟨100, "JPY"⟩ = .ok o' ∧
      o'.items.countP (fun it => it.bookId == "B1") = 1 ∧
      o'.items.find? (fun it => it.bookId == "B1") =
        some ⟨"B1", 3, ⟨100, "JPY"⟩, ⟨300, "JPY"⟩⟩) ∧
    Order.addItem ⟨⟨"id1"⟩, "c1", [⟨"B1", 5, ⟨100, "JPY"⟩, ⟨500, "JPY"⟩⟩],
      ⟨500, "JPY"⟩, .draft, 0, none, none, none⟩ "B1" (-7) ⟨100, "JPY"⟩ =
      .error .invalidMultiplier := by
  have hv : (⟨⟨"id1"⟩, "c1", [⟨"B1", 5, ⟨100, "JPY"⟩, ⟨500, "JPY"⟩⟩],
      ⟨500, "JPY"⟩, .draft, 0, none, none, none⟩ : Order).Valid :=
    Order.valid_draft_single ⟨"id1"⟩ "c1" ⟨"B1", 5, ⟨100, "JPY"⟩, ⟨500, "JPY"⟩⟩ 0
      (by decide) rfl (by decide)
  have hval : ∀ it ∈ (⟨⟨"id1"⟩, "c1", [⟨"B1", 5, ⟨100, "JPY"⟩, ⟨500, "JPY"⟩⟩],
      ⟨500, "JPY"⟩, .draft, 0, none, none, none⟩ : Order).items, it.Valid := by
    intro it hit
    simp at hit
    subst hit
    exact OrderItem.valid_iff.mpr ⟨by norm_num, by norm_num, by decide, by norm_num⟩
  constructor
  · have h := addItem_quantity_policy.1
      ⟨⟨"id1"⟩, "c1", [⟨"B1", 5, ⟨100, "JPY"⟩, ⟨500, "JPY"⟩⟩],
        ⟨500, "JPY"⟩, .draft, 0, none, none, none⟩
      "B1" (-2) ⟨100, "JPY"⟩ ⟨"B1", 5, ⟨100, "JPY"⟩, ⟨500, "JPY"⟩⟩
      hv hval rfl (by decide) (by decide)
      (by intro it hit; simp at hit; subst hit; rfl) ⟨by norm_num, by decide⟩
      (by norm_num) (by norm_num)
    obtain ⟨o', h1, h2, h3⟩ := h
    norm_num at h3
    exact ⟨o', h1, h2, h3⟩
  · exact addItem_quantity_policy.2.1
      ⟨⟨"id1"⟩, "c1", [⟨"B1", 5, ⟨100, "JPY"⟩, ⟨500, "JPY"⟩⟩],
        ⟨500, "JPY"⟩, .draft, 0, none, none, none⟩
      "B1" (-7) ⟨100, "JPY"⟩ ⟨"B1", 5, ⟨100, "JPY"⟩, ⟨500, "JPY"⟩⟩
      rfl (by decide) (by norm_num)

end Bookstore
